import Mathlib

/-!
Verification of the `itg` issue-browser terminal application.

The repository ships `src/main.rs`, which wires together argument parsing,
a one-shot issue fetch, terminal setup/teardown and the interactive loop.
The interactive core (`models::app_state::AppState`, `controls::run_app`,
`models::menu_items`, `models::issue`) is declared in `main.rs` but its
source files are not present; those parts are modelled from the
specification, as marked on each definition.  Everything about `main`,
`init_terminal` and `reset_terminal` is embedded directly from
`src/main.rs`.
-/

/-- Modelled from the spec: the `state` enum of an issue (open/closed),
from the missing `models::issue` module. -/
inductive IssueState
  | opened
  | closed
deriving DecidableEq

/-- Modelled from the spec: the immutable issue record fetched once
(numeric identifier, title, optional body, state, author handle,
creation timestamp), from the missing `models::issue` module. -/
structure Issue where
  number : Nat
  title : String
  body : Option String
  state : IssueState
  author : String
  created_at : String
deriving DecidableEq

/-- Modelled from the spec: the view-mode tag of the application state,
a tagged variant with values List, Detail and Quitting, from the missing
`models::app_state` module. -/
inductive ViewMode
  | list
  | detail
  | quitting
deriving DecidableEq

/-- Modelled from the spec: the mutable application state owned by the
event loop (issue sequence, selected index, view mode, scroll offset),
from the missing `models::app_state` module. -/
structure AppState where
  issues : List Issue
  selected_index : Nat
  view_mode : ViewMode
  scroll_offset : Nat
deriving DecidableEq

/-- Modelled from the spec: `AppState::new(issues)` constructs the state
with `selected_index = 0`, `scroll_offset = 0`, `view_mode = List`. -/
def AppState.new (issues : List Issue) : AppState :=
  { issues := issues
    selected_index := 0
    view_mode := ViewMode.list
    scroll_offset := 0 }

/-- Modelled from the spec: the scroll-offset recomputation performed by
`move_selection`, keeping the selected row inside a viewport of the
caller-supplied height: scroll up to the selection when it moved above
the window, scroll down just enough when it moved below, otherwise keep
the offset. -/
def adjustScroll (selected scroll height : Nat) : Nat :=
  if selected < scroll then selected
  else if scroll + height ≤ selected then selected + 1 - height
  else scroll

/-- Modelled from the spec: `move_selection(delta)` shifts
`selected_index` by `delta`, clamped to `[0, issues.len()-1]` without
wrapping, and recomputes `scroll_offset` for the caller-supplied
viewport height; it is a no-op on empty `issues`. -/
def AppState.move_selection (s : AppState) (delta : Int) (height : Nat) : AppState :=
  if s.issues = [] then s
  else
    let target : Int := (s.selected_index : Int) + delta
    let clamped : Nat := (min (max target 0) ((s.issues.length : Int) - 1)).toNat
    { s with
      selected_index := clamped
      scroll_offset := adjustScroll clamped s.scroll_offset height }

/-- Modelled from the spec: `enter_detail()` sets `view_mode = Detail`
if `issues` is non-empty and the current mode is List; no-op otherwise. -/
def AppState.enter_detail (s : AppState) : AppState :=
  if s.issues ≠ [] ∧ s.view_mode = ViewMode.list then
    { s with view_mode := ViewMode.detail }
  else s

/-- Modelled from the spec: `exit_detail()` sets `view_mode = List` if
the current mode is Detail; no-op otherwise. -/
def AppState.exit_detail (s : AppState) : AppState :=
  if s.view_mode = ViewMode.detail then { s with view_mode := ViewMode.list }
  else s

/-- Modelled from the spec: `request_quit()` sets `view_mode = Quitting`
unconditionally. -/
def AppState.request_quit (s : AppState) : AppState :=
  { s with view_mode := ViewMode.quitting }

/-- Modelled from the spec: the input events consumed by the event loop
of the missing `controls` module: the navigation keys, Enter, the
Escape/Back key, the quit key, a terminal resize, and any key not bound
in the menu registry. -/
inductive Event
  | up
  | down
  | enter
  | escape
  | quitKey
  | resize
  | other
deriving DecidableEq

/-- Modelled from the spec: the per-iteration transition of the event
loop in the missing `controls::run_app`, a pure function of
`(view_mode, event)`.  In List mode Up/Down move the selection, Enter
enters detail, the quit key requests quit; in Detail mode Escape exits
detail and the quit key requests quit; every other key, and any key in
Quitting mode, is inert. -/
def step (height : Nat) (s : AppState) (e : Event) : AppState :=
  match s.view_mode with
  | ViewMode.quitting => s
  | ViewMode.list =>
    match e with
    | Event.up => s.move_selection (-1) height
    | Event.down => s.move_selection 1 height
    | Event.enter => s.enter_detail
    | Event.quitKey => s.request_quit
    | _ => s
  | ViewMode.detail =>
    match e with
    | Event.escape => s.exit_detail
    | Event.quitKey => s.request_quit
    | _ => s

/-- Modelled from the spec: which events are bound in each view mode by
the menu registry. -/
def bound : ViewMode → Event → Bool
  | ViewMode.list, Event.up => true
  | ViewMode.list, Event.down => true
  | ViewMode.list, Event.enter => true
  | ViewMode.list, Event.quitKey => true
  | ViewMode.detail, Event.escape => true
  | ViewMode.detail, Event.quitKey => true
  | _, _ => false

/-- Modelled from the spec: the event loop of the missing
`controls::run_app`, consuming one event per iteration and exiting
before processing any further event once `view_mode` is Quitting.  The
unconsumed events are returned alongside the final state. -/
def runLoop (height : Nat) (s : AppState) : List Event → AppState × List Event
  | [] => (s, [])
  | e :: es =>
    if s.view_mode = ViewMode.quitting then (s, e :: es)
    else runLoop height (step height s e) es

/-- A transition applied to the application state: a direct call of one
of the four public operations, or one event-loop step. -/
inductive AppTrans
  | move (delta : Int) (height : Nat)
  | enterDetail
  | exitDetail
  | requestQuit
  | ev (height : Nat) (e : Event)

/-- Apply one transition to a state. -/
def applyTrans (s : AppState) : AppTrans → AppState
  | AppTrans.move d h => s.move_selection d h
  | AppTrans.enterDetail => s.enter_detail
  | AppTrans.exitDetail => s.exit_detail
  | AppTrans.requestQuit => s.request_quit
  | AppTrans.ev h e => step h s e

/-- A transition supplies a positive viewport height wherever it can
move the selection. -/
def AppTrans.goodHeight : AppTrans → Prop
  | AppTrans.move _ h => 0 < h
  | AppTrans.ev h _ => 0 < h
  | _ => True

/-- The state invariant: when `issues` is non-empty,
`scroll_offset ≤ selected_index < issues.length`. -/
def StateInv (s : AppState) : Prop :=
  s.issues ≠ [] → s.scroll_offset ≤ s.selected_index ∧ s.selected_index < s.issues.length

/-- `view_mode = Detail` only with non-empty `issues`. -/
def detailNonempty (s : AppState) : Prop :=
  s.view_mode = ViewMode.detail → s.issues ≠ []

theorem move_selection_issues (s : AppState) (d : Int) (h : Nat) :
    (s.move_selection d h).issues = s.issues := by
  unfold AppState.move_selection
  split <;> rfl

theorem move_selection_view_mode (s : AppState) (d : Int) (h : Nat) :
    (s.move_selection d h).view_mode = s.view_mode := by
  unfold AppState.move_selection
  split <;> rfl

theorem enter_detail_issues (s : AppState) : s.enter_detail.issues = s.issues := by
  unfold AppState.enter_detail
  split <;> rfl

theorem exit_detail_issues (s : AppState) : s.exit_detail.issues = s.issues := by
  unfold AppState.exit_detail
  split <;> rfl

theorem step_issues (h : Nat) (s : AppState) (e : Event) :
    (step h s e).issues = s.issues := by
  unfold step
  split <;>
    first
      | rfl
      | (split <;>
          simp [move_selection_issues, enter_detail_issues, exit_detail_issues,
            AppState.request_quit])

theorem applyTrans_issues (s : AppState) (t : AppTrans) :
    (applyTrans s t).issues = s.issues := by
  cases t <;>
    simp [applyTrans, move_selection_issues, enter_detail_issues, exit_detail_issues,
      AppState.request_quit, step_issues]

theorem foldl_applyTrans_issues (ts : List AppTrans) (s : AppState) :
    (ts.foldl applyTrans s).issues = s.issues := by
  induction ts generalizing s with
  | nil => rfl
  | cons t ts ih => rw [List.foldl_cons, ih, applyTrans_issues]

theorem move_selection_empty (s : AppState) (d : Int) (h : Nat) (he : s.issues = []) :
    s.move_selection d h = s := by
  unfold AppState.move_selection
  rw [if_pos he]

theorem move_selection_eq (s : AppState) (d : Int) (h : Nat) (hne : s.issues ≠ []) :
    s.move_selection d h =
      { s with
        selected_index :=
          (min (max ((s.selected_index : Int) + d) 0) ((s.issues.length : Int) - 1)).toNat
        scroll_offset :=
          adjustScroll
            (min (max ((s.selected_index : Int) + d) 0) ((s.issues.length : Int) - 1)).toNat
            s.scroll_offset h } := by
  unfold AppState.move_selection
  rw [if_neg hne]

theorem enter_detail_noop (s : AppState)
    (hv : s.issues = [] ∨ s.view_mode ≠ ViewMode.list) : s.enter_detail = s := by
  unfold AppState.enter_detail
  rw [if_neg]
  intro hc
  rcases hv with hv | hv
  · exact hc.1 hv
  · exact hv hc.2

theorem enter_detail_eq (s : AppState) (h1 : s.issues ≠ [])
    (h2 : s.view_mode = ViewMode.list) :
    s.enter_detail = { s with view_mode := ViewMode.detail } := by
  unfold AppState.enter_detail
  rw [if_pos ⟨h1, h2⟩]

theorem exit_detail_noop (s : AppState) (hv : s.view_mode ≠ ViewMode.detail) :
    s.exit_detail = s := by
  unfold AppState.exit_detail
  rw [if_neg hv]

theorem exit_detail_eq (s : AppState) (h : s.view_mode = ViewMode.detail) :
    s.exit_detail = { s with view_mode := ViewMode.list } := by
  unfold AppState.exit_detail
  rw [if_pos h]

theorem step_quitting (h : Nat) (s : AppState) (e : Event)
    (hv : s.view_mode = ViewMode.quitting) : step h s e = s := by
  unfold step
  rw [hv]

theorem adjustScroll_le (selected scroll height : Nat) (hh : 0 < height) :
    adjustScroll selected scroll height ≤ selected := by
  unfold adjustScroll
  split
  · omega
  split <;> omega

theorem lt_adjustScroll_add (selected scroll height : Nat) (hh : 0 < height) :
    selected < adjustScroll selected scroll height + height := by
  unfold adjustScroll
  split
  · omega
  split <;> omega

theorem clamped_lt_length (sel : Nat) (d : Int) (n : Nat) (hn : 0 < n) :
    (min (max ((sel : Int) + d) 0) ((n : Int) - 1)).toNat < n := by
  omega

theorem move_selection_inv (s : AppState) (d : Int) (h : Nat) (hh : 0 < h)
    (hs : StateInv s) : StateInv (s.move_selection d h) := by
  by_cases hne : s.issues = []
  · rw [move_selection_empty s d h hne]
    exact hs
  · rw [move_selection_eq s d h hne]
    intro _
    refine ⟨adjustScroll_le _ _ _ hh, ?_⟩
    exact clamped_lt_length _ _ _ (List.length_pos.mpr hne)

theorem enter_detail_inv (s : AppState) (hs : StateInv s) : StateInv s.enter_detail := by
  unfold StateInv AppState.enter_detail at *
  split <;> exact hs

theorem exit_detail_inv (s : AppState) (hs : StateInv s) : StateInv s.exit_detail := by
  unfold StateInv AppState.exit_detail at *
  split <;> exact hs

theorem request_quit_inv (s : AppState) (hs : StateInv s) : StateInv s.request_quit := by
  unfold StateInv AppState.request_quit at *
  exact hs

theorem step_inv (h : Nat) (s : AppState) (e : Event) (hh : 0 < h) (hs : StateInv s) :
    StateInv (step h s e) := by
  unfold step
  split
  · exact hs
  · split
    · exact move_selection_inv s (-1) h hh hs
    · exact move_selection_inv s 1 h hh hs
    · exact enter_detail_inv s hs
    · exact request_quit_inv s hs
    · exact hs
  · split
    · exact exit_detail_inv s hs
    · exact request_quit_inv s hs
    · exact hs

theorem applyTrans_inv (s : AppState) (t : AppTrans) (hg : t.goodHeight)
    (hs : StateInv s) : StateInv (applyTrans s t) := by
  cases t with
  | move d h => exact move_selection_inv s d h hg hs
  | enterDetail => exact enter_detail_inv s hs
  | exitDetail => exact exit_detail_inv s hs
  | requestQuit => exact request_quit_inv s hs
  | ev h e => exact step_inv h s e hg hs

theorem foldl_applyTrans_inv (ts : List AppTrans) (s : AppState) (hs : StateInv s)
    (hts : ∀ t ∈ ts, t.goodHeight) : StateInv (ts.foldl applyTrans s) := by
  induction ts generalizing s with
  | nil => exact hs
  | cons t ts ih =>
    rw [List.foldl_cons]
    exact ih _ (applyTrans_inv s t (hts t (List.mem_cons_self t ts)) hs)
      (fun t' ht' => hts t' (List.mem_cons_of_mem t ht'))

theorem new_inv (issues : List Issue) : StateInv (AppState.new issues) :=
  fun hne => ⟨Nat.le_refl 0, List.length_pos.mpr hne⟩

theorem move_selection_dne (s : AppState) (d : Int) (h : Nat)
    (hs : detailNonempty s) : detailNonempty (s.move_selection d h) := by
  unfold detailNonempty at *
  rw [move_selection_view_mode, move_selection_issues]
  exact hs

theorem enter_detail_dne (s : AppState) (hs : detailNonempty s) :
    detailNonempty s.enter_detail := by
  unfold detailNonempty AppState.enter_detail at *
  split
  · rename_i hc
    intro _
    exact hc.1
  · exact hs

theorem exit_detail_dne (s : AppState) (hs : detailNonempty s) :
    detailNonempty s.exit_detail := by
  unfold detailNonempty AppState.exit_detail at *
  split
  · intro hd
    exact ViewMode.noConfusion hd
  · exact hs

theorem request_quit_dne (s : AppState) (_hs : detailNonempty s) :
    detailNonempty s.request_quit := by
  intro hd
  exact ViewMode.noConfusion hd

theorem step_dne (h : Nat) (s : AppState) (e : Event) (hs : detailNonempty s) :
    detailNonempty (step h s e) := by
  unfold step
  split
  · exact hs
  · split
    · exact move_selection_dne s (-1) h hs
    · exact move_selection_dne s 1 h hs
    · exact enter_detail_dne s hs
    · exact request_quit_dne s hs
    · exact hs
  · split
    · exact exit_detail_dne s hs
    · exact request_quit_dne s hs
    · exact hs

theorem applyTrans_dne (s : AppState) (t : AppTrans) (hs : detailNonempty s) :
    detailNonempty (applyTrans s t) := by
  cases t with
  | move d h => exact move_selection_dne s d h hs
  | enterDetail => exact enter_detail_dne s hs
  | exitDetail => exact exit_detail_dne s hs
  | requestQuit => exact request_quit_dne s hs
  | ev h e => exact step_dne h s e hs

theorem foldl_applyTrans_dne (ts : List AppTrans) (s : AppState)
    (hs : detailNonempty s) : detailNonempty (ts.foldl applyTrans s) := by
  induction ts generalizing s with
  | nil => exact hs
  | cons t ts ih =>
    rw [List.foldl_cons]
    exact ih _ (applyTrans_dne s t hs)

theorem new_dne (issues : List Issue) : detailNonempty (AppState.new issues) :=
  fun hd => ViewMode.noConfusion hd

theorem applyTrans_quitting (s : AppState) (t : AppTrans)
    (hq : s.view_mode = ViewMode.quitting) :
    (applyTrans s t).view_mode = ViewMode.quitting := by
  cases t with
  | move d h =>
    show (s.move_selection d h).view_mode = _
    rw [move_selection_view_mode]
    exact hq
  | enterDetail =>
    show s.enter_detail.view_mode = _
    rw [enter_detail_noop s (Or.inr (by simp [hq]))]
    exact hq
  | exitDetail =>
    show s.exit_detail.view_mode = _
    rw [exit_detail_noop s (by simp [hq])]
    exact hq
  | requestQuit => rfl
  | ev h e =>
    show (step h s e).view_mode = _
    rw [step_quitting h s e hq]
    exact hq

theorem foldl_applyTrans_quitting (ts : List AppTrans) (s : AppState)
    (hq : s.view_mode = ViewMode.quitting) :
    (ts.foldl applyTrans s).view_mode = ViewMode.quitting := by
  induction ts generalizing s with
  | nil => exact hq
  | cons t ts ih =>
    rw [List.foldl_cons]
    exact ih _ (applyTrans_quitting s t hq)

theorem step_unbound (h : Nat) (s : AppState) (e : Event)
    (hb : bound s.view_mode e = false) : step h s e = s := by
  obtain ⟨is, sel, vm, scr⟩ := s
  cases vm <;> cases e <;> first | rfl | simp [bound] at hb

theorem step_detail_nav (h : Nat) (s : AppState)
    (hv : s.view_mode = ViewMode.detail) :
    step h s Event.up = s ∧ step h s Event.down = s ∧ step h s Event.enter = s := by
  refine ⟨step_unbound h s Event.up ?_, step_unbound h s Event.down ?_,
    step_unbound h s Event.enter ?_⟩ <;> rw [hv] <;> rfl

/-- One observable action of `main` in `src/main.rs`.  Terminal-mode
actions are split into their crossterm calls so the raw/alternate-screen
state can be tracked. -/
inductive MainAct
  | printConfigPath
  | exitProcess (code : Nat)
  | spinnerStart
  | fetchIssues
  | spinnerFinish
  | enterAltScreen
  | enableRaw
  | registerPanicHook
  | newAppState
  | runApp
  | disableRaw
  | leaveAltScreen
  | printError
  | returnErr
  | returnOk
deriving DecidableEq

/-- The actions of `init_terminal` (src/main.rs lines 89-106): enter the
alternate screen, enable raw mode, create the backend, and install the
panic hook that calls `reset_terminal` before the original hook. -/
def initTerminalActs : List MainAct :=
  [MainAct.enterAltScreen, MainAct.enableRaw, MainAct.registerPanicHook]

/-- The actions of `reset_terminal` (src/main.rs lines 108-113): disable
raw mode, then leave the alternate screen. -/
def resetTerminalActs : List MainAct :=
  [MainAct.disableRaw, MainAct.leaveAltScreen]

/-- The action trace of `main` (src/main.rs lines 51-87), parameterised
by the `--file-path` flag and by success flags for `fetch_issues` and
`run_app` (their payloads do not influence the trace; terminal
setup/teardown calls themselves are assumed to succeed).  With
`--file-path` the config path is printed, `reset_terminal` runs and the
process exits with code 1; otherwise the spinner starts, `fetch_issues`
runs (a failure propagates out of `main` via `?` at line 70), then
`init_terminal`, `AppState::new`, `run_app`, `reset_terminal`, and on a
`run_app` error the error is printed, `reset_terminal` runs again and
the process exits with code 1. -/
def mainActs (filePath fetchOk runOk : Bool) : List MainAct :=
  if filePath then
    MainAct.printConfigPath :: resetTerminalActs ++ [MainAct.exitProcess 1]
  else
    MainAct.spinnerStart :: MainAct.fetchIssues ::
      if fetchOk then
        MainAct.spinnerFinish :: initTerminalActs ++
          MainAct.newAppState :: MainAct.runApp :: resetTerminalActs ++
          if runOk then [MainAct.returnOk]
          else MainAct.printError :: resetTerminalActs ++ [MainAct.exitProcess 1]
      else [MainAct.returnErr]

/-- The trace executed when `run_app` panics: the prefix of the normal
trace up to and including `run_app`, followed by the panic hook installed
by `init_terminal` (src/main.rs lines 100-103), which calls
`reset_terminal`. -/
def mainPanicActs : List MainAct :=
  MainAct.spinnerStart :: MainAct.fetchIssues :: MainAct.spinnerFinish ::
    initTerminalActs ++ MainAct.newAppState :: MainAct.runApp :: resetTerminalActs

/-- Whether raw mode is active after executing a list of actions,
starting from the cooked mode `main` is entered in. -/
def rawAfter (acts : List MainAct) : Bool :=
  acts.foldl
    (fun r a =>
      match a with
      | MainAct.enableRaw => true
      | MainAct.disableRaw => false
      | _ => r) false

/-- Whether the alternate screen is active after executing a list of
actions, starting from the main screen. -/
def altAfter (acts : List MainAct) : Bool :=
  acts.foldl
    (fun r a =>
      match a with
      | MainAct.enterAltScreen => true
      | MainAct.leaveAltScreen => false
      | _ => r) false

/-- A concrete issue used to instantiate the theorems on concrete states. -/
def sampleIssue : Issue :=
  { number := 1
    title := ""
    body := none
    state := IssueState.opened
    author := ""
    created_at := "" }

/-- C1: starting from any constructed state and applying any sequence of
transitions (direct calls of move_selection / enter_detail / exit_detail /
request_quit and event-loop steps, each using a positive viewport height),
whenever `issues` is non-empty the invariant
`scroll_offset ≤ selected_index ≤ issues.length - 1` holds after the
sequence, so `selected_index` is a valid index and never wraps past
either end. -/
theorem c1_selection_invariant (issues : List Issue) (ts : List AppTrans)
    (hts : ∀ t ∈ ts, t.goodHeight)
    (hne : (ts.foldl applyTrans (AppState.new issues)).issues ≠ []) :
    (ts.foldl applyTrans (AppState.new issues)).scroll_offset ≤
        (ts.foldl applyTrans (AppState.new issues)).selected_index ∧
      (ts.foldl applyTrans (AppState.new issues)).selected_index ≤
        (ts.foldl applyTrans (AppState.new issues)).issues.length - 1 ∧
      (ts.foldl applyTrans (AppState.new issues)).selected_index <
        (ts.foldl applyTrans (AppState.new issues)).issues.length := by
  have h := foldl_applyTrans_inv ts (AppState.new issues) (new_inv issues) hts hne
  exact ⟨h.1, by omega, h.2⟩

theorem c1_selection_invariant_witness :
    ([AppTrans.ev 1 Event.down].foldl applyTrans
        (AppState.new [sampleIssue])).selected_index <
      ([AppTrans.ev 1 Event.down].foldl applyTrans
        (AppState.new [sampleIssue])).issues.length :=
  (c1_selection_invariant [sampleIssue] [AppTrans.ev 1 Event.down]
      (by
        intro t ht
        rw [List.mem_singleton] at ht
        subst ht
        exact Nat.one_pos)
      (by rw [foldl_applyTrans_issues]; exact List.cons_ne_nil _ _)).2.2

/-- C2: `move_selection(delta)` leaves `issues` and `view_mode` untouched;
on non-empty `issues` it sets `selected_index` to the old index shifted by
`delta` and clamped to `[0, issues.length - 1]` (no wrapping), and
recomputes `scroll_offset` so the selected row lies inside the
caller-supplied viewport of positive height; on empty `issues` it is the
identity on the whole state.  The operation is a total function, so it
never panics. -/
theorem c2_move_selection_spec (s : AppState) (d : Int) (h : Nat) (hh : 0 < h) :
    (s.move_selection d h).issues = s.issues ∧
    (s.move_selection d h).view_mode = s.view_mode ∧
    (s.issues ≠ [] →
      (s.move_selection d h).selected_index =
        (min (max ((s.selected_index : Int) + d) 0)
          ((s.issues.length : Int) - 1)).toNat ∧
      (s.move_selection d h).scroll_offset ≤ (s.move_selection d h).selected_index ∧
      (s.move_selection d h).selected_index < (s.move_selection d h).scroll_offset + h) ∧
    (s.issues = [] → s.move_selection d h = s) := by
  refine ⟨move_selection_issues s d h, move_selection_view_mode s d h, ?_,
    move_selection_empty s d h⟩
  intro hne
  rw [move_selection_eq s d h hne]
  exact ⟨rfl, adjustScroll_le _ _ _ hh, lt_adjustScroll_add _ _ _ hh⟩

theorem c2_move_selection_spec_witness :
    0 < 1 ∧
      ((AppState.new [sampleIssue]).move_selection 1 1).view_mode =
        (AppState.new [sampleIssue]).view_mode :=
  ⟨Nat.one_pos, (c2_move_selection_spec (AppState.new [sampleIssue]) 1 1 Nat.one_pos).2.1⟩

/-- C3: `request_quit()` sets `view_mode = Quitting` unconditionally and
is idempotent; no subsequent transition of any kind changes `view_mode`
away from Quitting; and the event loop exits before processing any
further event, returning every remaining event unconsumed. -/
theorem c3_quitting_terminal (s : AppState) (ts : List AppTrans) (h : Nat)
    (es : List Event) :
    s.request_quit.view_mode = ViewMode.quitting ∧
    s.request_quit.request_quit = s.request_quit ∧
    (ts.foldl applyTrans s.request_quit).view_mode = ViewMode.quitting ∧
    runLoop h s.request_quit es = (s.request_quit, es) := by
  refine ⟨rfl, rfl, foldl_applyTrans_quitting ts _ rfl, ?_⟩
  cases es with
  | nil => rfl
  | cons e es =>
    unfold runLoop
    have hq : s.request_quit.view_mode = ViewMode.quitting := rfl
    rw [if_pos hq]

/-- C4: `enter_detail()` sets `view_mode = Detail` exactly when `issues`
is non-empty and the current mode is List, and is a no-op otherwise; and
in every state reachable from a constructed state, `view_mode = Detail`
implies `issues` is non-empty. -/
theorem c4_enter_detail (s : AppState) (issues : List Issue) (ts : List AppTrans) :
    (s.issues ≠ [] → s.view_mode = ViewMode.list →
      s.enter_detail = { s with view_mode := ViewMode.detail }) ∧
    (s.issues = [] ∨ s.view_mode ≠ ViewMode.list → s.enter_detail = s) ∧
    ((ts.foldl applyTrans (AppState.new issues)).view_mode = ViewMode.detail →
      issues ≠ []) := by
  refine ⟨fun h1 h2 => enter_detail_eq s h1 h2, enter_detail_noop s, ?_⟩
  intro hd
  have hdn := foldl_applyTrans_dne ts (AppState.new issues) (new_dne issues) hd
  rw [foldl_applyTrans_issues] at hdn
  exact hdn

theorem c4_enter_detail_witness :
    (AppState.new [sampleIssue]).enter_detail =
      { AppState.new [sampleIssue] with view_mode := ViewMode.detail } :=
  (c4_enter_detail (AppState.new [sampleIssue]) [] []).1
    (List.cons_ne_nil _ _) rfl

/-- C5: from any List-mode state with non-empty issues, `enter_detail()`
followed by `exit_detail()` restores the exact original state (so
`view_mode` is List again and `selected_index` / `scroll_offset` are
unchanged); `exit_detail()` sets `view_mode = List` exactly when the
current mode is Detail and is a no-op otherwise. -/
theorem c5_detail_round_trip (s : AppState) (h1 : s.view_mode = ViewMode.list)
    (h2 : s.issues ≠ []) :
    s.enter_detail.exit_detail = s ∧
    s.enter_detail.exit_detail.view_mode = ViewMode.list ∧
    s.enter_detail.exit_detail.selected_index = s.selected_index ∧
    s.enter_detail.exit_detail.scroll_offset = s.scroll_offset ∧
    (∀ t : AppState, t.view_mode = ViewMode.detail →
      t.exit_detail = { t with view_mode := ViewMode.list }) ∧
    (∀ t : AppState, t.view_mode ≠ ViewMode.detail → t.exit_detail = t) := by
  have he : s.enter_detail.exit_detail = s := by
    rw [enter_detail_eq s h2 h1, exit_detail_eq _ rfl]
    obtain ⟨is, sel, vm, scr⟩ := s
    simp only at h1
    rw [h1]
  exact ⟨he, by rw [he]; exact h1, by rw [he], by rw [he], exit_detail_eq,
    exit_detail_noop⟩

theorem c5_detail_round_trip_witness :
    (AppState.new [sampleIssue]).enter_detail.exit_detail =
      AppState.new [sampleIssue] :=
  (c5_detail_round_trip (AppState.new [sampleIssue]) rfl
    (List.cons_ne_nil _ _)).1

/-- C6: an event not bound in the current view mode leaves the state
identical in every field (the step function is total, so no error is
signalled); in particular, in Detail mode the navigation keys Up, Down
and Enter cause no change at all. -/
theorem c6_unbound_inert (h : Nat) (s : AppState) (e : Event)
    (hb : bound s.view_mode e = false) :
    step h s e = s ∧
    (s.view_mode = ViewMode.detail →
      step h s Event.up = s ∧ step h s Event.down = s ∧ step h s Event.enter = s) :=
  ⟨step_unbound h s e hb, fun hv => step_detail_nav h s hv⟩

theorem c6_unbound_inert_witness :
    step 1 (AppState.new [sampleIssue]) Event.other = AppState.new [sampleIssue] :=
  (c6_unbound_inert 1 (AppState.new [sampleIssue]) Event.other rfl).1

/-- C7: `AppState::new(issues)` yields `selected_index = 0`,
`scroll_offset = 0`, `view_mode = List` and stores the given sequence,
for every sequence including the empty one; on the empty sequence
`move_selection` is a no-op, the Up/Down event steps are no-ops, and no
sequence of transitions ever reaches Detail mode. -/
theorem c7_new_spec (issues : List Issue) (d : Int) (h : Nat) (ts : List AppTrans) :
    (AppState.new issues).selected_index = 0 ∧
    (AppState.new issues).scroll_offset = 0 ∧
    (AppState.new issues).view_mode = ViewMode.list ∧
    (AppState.new issues).issues = issues ∧
    (issues = [] →
      (AppState.new issues).move_selection d h = AppState.new issues ∧
      step h (AppState.new issues) Event.up = AppState.new issues ∧
      step h (AppState.new issues) Event.down = AppState.new issues ∧
      (ts.foldl applyTrans (AppState.new issues)).view_mode ≠ ViewMode.detail) := by
  refine ⟨rfl, rfl, rfl, rfl, fun he =>
    ⟨move_selection_empty _ d h he, move_selection_empty _ (-1) h he,
      move_selection_empty _ 1 h he, ?_⟩⟩
  intro hd
  have hdn := foldl_applyTrans_dne ts _ (new_dne issues) hd
  rw [foldl_applyTrans_issues] at hdn
  exact hdn he

theorem c7_new_spec_witness :
    (AppState.new []).move_selection 1 1 = AppState.new [] :=
  ((c7_new_spec [] 1 1 []).2.2.2.2 rfl).1

/-- C8: on every non-`--file-path` run, `fetch_issues` appears exactly
once in the trace of `main`, strictly before raw mode is enabled, before
the alternate screen is entered, and before `AppState::new`; and when the
fetch fails the trace contains no terminal mode switch and no state
construction or event loop at all — `main` immediately returns the
error. -/
theorem c8_fetch_first (fetchOk runOk : Bool) :
    (mainActs false fetchOk runOk).count MainAct.fetchIssues = 1 ∧
    (mainActs false fetchOk runOk).indexOf MainAct.fetchIssues <
      (mainActs false fetchOk runOk).indexOf MainAct.enableRaw ∧
    (mainActs false fetchOk runOk).indexOf MainAct.fetchIssues <
      (mainActs false fetchOk runOk).indexOf MainAct.enterAltScreen ∧
    (mainActs false fetchOk runOk).indexOf MainAct.fetchIssues <
      (mainActs false fetchOk runOk).indexOf MainAct.newAppState ∧
    (fetchOk = false →
      MainAct.enterAltScreen ∉ mainActs false fetchOk runOk ∧
      MainAct.enableRaw ∉ mainActs false fetchOk runOk ∧
      MainAct.newAppState ∉ mainActs false fetchOk runOk ∧
      MainAct.runApp ∉ mainActs false fetchOk runOk ∧
      (mainActs false fetchOk runOk).getLast? = some MainAct.returnErr) := by
  cases fetchOk <;> cases runOk <;> decide

theorem c8_fetch_first_witness :
    MainAct.enableRaw ∉ mainActs false false true :=
  ((c8_fetch_first false true).2.2.2.2 rfl).2.1

/-- C9: the terminal is restored on every modelled exit path of `main`:
raw mode and the alternate screen are off at the end of the normal trace,
of the `run_app`-error trace (where `reset_terminal`'s disabling of raw
mode happens before the error is printed), and of the panic trace in
which the hook installed by `init_terminal` runs `reset_terminal`; the
panic hook is registered before `run_app` starts. -/
theorem c9_terminal_restored (fetchOk runOk : Bool) :
    rawAfter (mainActs false fetchOk runOk) = false ∧
    altAfter (mainActs false fetchOk runOk) = false ∧
    (fetchOk = true →
      (mainActs false fetchOk runOk).indexOf MainAct.registerPanicHook <
        (mainActs false fetchOk runOk).indexOf MainAct.runApp) ∧
    (fetchOk = true → runOk = false →
      (mainActs false fetchOk runOk).indexOf MainAct.disableRaw <
        (mainActs false fetchOk runOk).indexOf MainAct.printError) ∧
    rawAfter mainPanicActs = false ∧
    altAfter mainPanicActs = false := by
  cases fetchOk <;> cases runOk <;> decide

theorem c9_terminal_restored_witness :
    (mainActs false true false).indexOf MainAct.disableRaw <
      (mainActs false true false).indexOf MainAct.printError :=
  (c9_terminal_restored true false).2.2.2.1 rfl rfl

/-- C10: with the `--file-path` flag, the trace of `main` is exactly:
print the configuration file path, run `reset_terminal` (disable raw
mode and leave the alternate screen, although raw mode was never
enabled), and exit the process with status code 1 — with no fetch, no
`AppState` construction and no event loop. -/
theorem c10_file_path_branch (fetchOk runOk : Bool) :
    mainActs true fetchOk runOk =
      [MainAct.printConfigPath, MainAct.disableRaw, MainAct.leaveAltScreen,
        MainAct.exitProcess 1] ∧
    MainAct.fetchIssues ∉ mainActs true fetchOk runOk ∧
    MainAct.newAppState ∉ mainActs true fetchOk runOk ∧
    MainAct.runApp ∉ mainActs true fetchOk runOk ∧
    MainAct.enterAltScreen ∉ mainActs true fetchOk runOk ∧
    MainAct.enableRaw ∉ mainActs true fetchOk runOk := by
  cases fetchOk <;> cases runOk <;> decide
